import Mathlib

/-!
Shallow embedding of the odds-portal scraper core
(`full_scraper/oddsportal/crawler.py` and `full_scraper/oddsportal/scraper.py`)
together with proofs about its pagination resolver, season-link discovery,
odds normalization and game-record assembly.

Python strings are modelled as Lean `String`; the string helpers below
(`strIn`, `pyReplace`, `pySplit`, `pyStrip`, `pyInt`, `pyRound`) mirror the
Python primitives (`in`, `str.replace`, `str.split`, `str.strip`, `int()`,
`round()`) used by the source.  Decimal values read from the page are
modelled as rationals; a text that `float()` fails to parse is modelled as
`none`.  Fallible code returns `Except`.
-/

/-- Python `needle in hay` substring test, on character lists. -/
def listContainsSub (needle hay : List Char) : Bool :=
  (List.range (hay.length + 1)).any
    (fun i => decide ((hay.drop i).take needle.length = needle))

/-- Python `needle in hay` substring test on strings. -/
def strIn (needle hay : String) : Bool :=
  listContainsSub needle.toList hay.toList

/-- One left-to-right non-overlapping replacement pass, as Python
`str.replace` performs.  Structural recursion on a fuel that bounds the
remaining length (every step consumes at least one character, so a fuel
equal to the initial length never runs out). -/
def replaceGo (pat rep : List Char) : Nat → List Char → List Char
  | 0, l => l
  | _ + 1, [] => []
  | fuel + 1, c :: rest =>
    if (c :: rest).take pat.length = pat then
      rep ++ replaceGo pat rep fuel (rest.drop (pat.length - 1))
    else
      c :: replaceGo pat rep fuel rest

/-- Python `s.replace(pat, rep)`. -/
def pyReplace (s pat rep : String) : String :=
  String.mk (replaceGo pat.toList rep.toList s.toList.length s.toList)

/-- Python `s.split(sep)` for a one-character separator (character lists). -/
def splitOnChar (sep : Char) : List Char → List (List Char)
  | [] => [[]]
  | c :: rest =>
    match splitOnChar sep rest with
    | [] => [[]]
    | grp :: gs => if c = sep then [] :: grp :: gs else (c :: grp) :: gs

/-- Python `s.split(sep)` for a one-character separator. -/
def pySplit (sep : Char) (s : String) : List String :=
  (splitOnChar sep s.toList).map String.mk

/-- Strip leading and trailing whitespace from a character list. -/
def trimList (l : List Char) : List Char :=
  ((l.dropWhile Char.isWhitespace).reverse.dropWhile Char.isWhitespace).reverse

/-- Python `s.strip()`. -/
def pyStrip (s : String) : String :=
  String.mk (trimList s.toList)

/-- Value of a non-empty all-digit character list, `none` otherwise. -/
def digitsToNat (l : List Char) : Option Nat :=
  if l.isEmpty then none
  else
    l.foldl
      (fun acc c =>
        match acc with
        | none => none
        | some n => if c.isDigit then some (n * 10 + (c.toNat - 48)) else none)
      (some 0)

/-- Python `int(s)`: strip whitespace, optional sign, then decimal digits;
`none` models the `ValueError` raised on anything else. -/
def pyInt (s : String) : Option Int :=
  match (pyStrip s).toList with
  | '-' :: rest => (digitsToNat rest).map (fun n => -(n : Int))
  | '+' :: rest => (digitsToNat rest).map (fun n => (n : Int))
  | l => (digitsToNat l).map (fun n => (n : Int))

/-- Python `round()`: round half to even, on rationals. -/
def pyRound (q : ℚ) : Int :=
  let f := ⌊q⌋
  let r := q - (f : ℚ)
  if r < 1 / 2 then f
  else if 1 / 2 < r then f + 1
  else if f % 2 = 0 then f else f + 1

deriving instance DecidableEq for Except

/-- Exceptions raised by the inline odds-conversion expression
(`ValueError` from `float(...)`, `ZeroDivisionError` from `-100 / (d - 1)`). -/
inductive OddsError where
  | valueError
  | zeroDivisionError
deriving DecidableEq

/-- The odds conversion the assembler applies at `scraper.py` lines 179,
186, 194 and 229:
`round((d - 1) * 100) if d >= 2.00 else round(-100 / (d - 1))`,
with the `d = 1` division failure made explicit. -/
def normalizeOdds (d : ℚ) : Except OddsError Int :=
  if 2 ≤ d then .ok (pyRound ((d - 1) * 100))
  else if d = 1 then .error .zeroDivisionError
  else .ok (pyRound (-100 / (d - 1)))

/-- `float(text)` followed by the conversion: an unparsable text raises
`ValueError` before the arithmetic runs. -/
def normalizeText (t : Option ℚ) : Except OddsError Int :=
  match t with
  | none => .error .valueError
  | some d => normalizeOdds d

/-- Modelled from the spec: outcome values of a `Game`
(`models.py` is not part of the provided sources; §3 lists the set
{HOME, AWAY, DRAW, UNKNOWN}, derived, `UNKNOWN` when a score is absent,
hence the constructor default). -/
inductive Outcome where
  | HOME
  | AWAY
  | DRAW
  | UNKNOWN
deriving DecidableEq

/-- Modelled from the spec: the `Game` record of `models.py` (not in the
provided sources).  §3: nullable fields start absent, `outcome` defaults to
`UNKNOWN`; the scraper then populates fields opportunistically. -/
structure Game where
  team_home : Option String := none
  team_away : Option String := none
  score_home : Option Int := none
  score_away : Option Int := none
  outcome : Outcome := .UNKNOWN
  odds_home : Option Int := none
  odds_away : Option Int := none
  odds_draw : Option Int := none
  final_odds_home : Option Int := none
  final_odds_away : Option Int := none
  final_odds_draw : Option Int := none
  pub_percent : Option ℚ := none
  game_url : Option String := none
  retrieval_url : Option String := none
  retrieval_datetime : Option String := none
  num_possible_outcomes : Option Nat := none
deriving DecidableEq

/-- Modelled from the spec: the `Season` record of `models.py` (not in the
provided sources).  §3: name label, `possible_outcomes` fixed at
construction (2 or 3), an ordered url list and an append-only game list. -/
structure Season where
  name : String
  possible_outcomes : Nat := 2
  urls : List String := []
  games : List Game := []
deriving DecidableEq

/-- Modelled from the spec: `Season.add_game` appends (games are
append-only, §3). -/
def Season.add_game (s : Season) (g : Game) : Season :=
  { s with games := s.games ++ [g] }

/-!  ## Crawler (`crawler.py`)

A pagination anchor (`div#pagination > a`) is modelled by the data the
resolver reads from it: the text of its inner `span` child (`none` when
the child or its text is missing), and its `x-page` / `href` attributes
(`none` models the `KeyError` of a missing attribute). -/

structure PageAnchor where
  spanText : Option String
  xPage : Option String
  href : Option String
deriving DecidableEq

/-- The rendered state of the browser session after the resolver navigates
to a season's first URL: whether `go_to_link` reported success, the text of
the `div.message-info > ul > li > div.cms` query (empty string when the
selection is empty) and the `div#pagination > a` anchors. -/
structure CrawlPage where
  load_ok : Bool
  noDataText : String
  paginationLinks : List PageAnchor
deriving DecidableEq

/-- Exceptions the crawler can raise. -/
inductive CrawlError where
  | runtimeError
  | keyError
  | valueError
  | indexError
deriving DecidableEq

/-- `Crawler.go_to_link`, reduced to its observable result on the rendered
page state. -/
def go_to_link (pg : CrawlPage) : Bool :=
  pg.load_ok

/-- The loop of `crawler.py` lines 181-187: scan the pagination anchors in
reverse for the first whose inner span text contains the glyphs `»|`. -/
def isLastPageAnchor (a : PageAnchor) : Bool :=
  match a.spanText with
  | some s => strIn "»|" s
  | none => false

def findLastAnchor (links : List PageAnchor) : Option PageAnchor :=
  links.reverse.find? isLastPageAnchor

/-- `Crawler.fill_in_season_pagination_links` (`crawler.py` lines 159-195).
The navigation result is computed and discarded exactly as the source
ignores the return value of `go_to_link` on line 165. -/
def fill_in_season_pagination_links (pg : CrawlPage) (season : Season) :
    Except CrawlError Season :=
  match season.urls.head? with
  | none => .error .indexError
  | some first_url_in_season =>
    let _ := go_to_link pg
    if pg.noDataText == "No data available" then .ok season
    else if pg.paginationLinks.length ≤ 1 then .ok season
    else
      match findLastAnchor pg.paginationLinks with
      | none => .error .runtimeError
      | some link =>
        match link.xPage with
        | none => .error .keyError
        | some xp =>
          match pyInt xp with
          | none => .error .valueError
          | some last_page_number =>
            match link.href with
            | none => .error .keyError
            | some hr =>
              let last_page_url := first_url_in_season ++ hr
              let inter := (List.range' 2 (last_page_number - 2).toNat).map
                (fun i => pyReplace last_page_url
                  ("page/" ++ toString last_page_number)
                  ("page/" ++ toString i))
              .ok { season with urls := season.urls ++ inter ++ [last_page_url] }

/-- A candidate season link as `get_seasons_for_league` reads it: its
`href` attribute (`none` models the `KeyError` of a missing attribute) and
its element text (`None` in Python becomes `none`). -/
structure SeasonLink where
  href : Option String
  text : Option String
deriving DecidableEq

/-- The rendered league root page: whether `go_to_link` succeeded, and the
matches of the four fixed selectors of `crawler.py` lines 130-135, in that
order. -/
structure LeagueDoc where
  load_ok : Bool
  selResults : List SeasonLink
  selSeasonsDiv : List SeasonLink
  selFilterDiv : List SeasonLink
  selTournamentNav : List SeasonLink
deriving DecidableEq

/-- The selector results in the priority order of the source list. -/
def selectorMatches (d : LeagueDoc) : List (List SeasonLink) :=
  [d.selResults, d.selSeasonsDiv, d.selFilterDiv, d.selTournamentNav]

/-- Inner loop of `crawler.py` lines 142-152: for each matched link take
`href = link.attrib['href']` and `text = link.text or ''`; when
`'/results/' in href and text`, append a `Season` named `text.strip()`
whose url list is `[href]`. -/
def processSeasonLinks : List SeasonLink → List Season → Except CrawlError (List Season)
  | [], seasons => .ok seasons
  | l :: ls, seasons =>
    match l.href with
    | none => .error .keyError
    | some href =>
      let text := l.text.getD ""
      if strIn "/results/" href && text != "" then
        processSeasonLinks ls
          (seasons ++ [{ name := pyStrip text, possible_outcomes := 2,
                         urls := [href], games := [] }])
      else
        processSeasonLinks ls seasons

/-- Outer loop of `crawler.py` lines 137-152: every selector in the list is
visited (there is no `break`); a selector with no matches is skipped by the
`if season_links:` guard. -/
def processSelectors : List (List SeasonLink) → List Season → Except CrawlError (List Season)
  | [], seasons => .ok seasons
  | links :: rest, seasons =>
    if links.isEmpty then processSelectors rest seasons
    else
      match processSeasonLinks links seasons with
      | .error e => .error e
      | .ok seasons' => processSelectors rest seasons'

/-- `Crawler.get_seasons_for_league` (`crawler.py` lines 103-157). -/
def get_seasons_for_league (d : LeagueDoc) : Except CrawlError (List Season) :=
  if !d.load_ok then .ok []
  else processSelectors (selectorMatches d) []

/-!  ## Scraper (`scraper.py`)

An event row is modelled by what the assembler reads from it and from the
two detail views it opens for the row.  Texts that Python feeds to
`float(...)` are modelled by their parse result (`none` = `ValueError`). -/

structure EventRow where
  /-- `row_query('a[href*="/american-football/"]').attr('href')`
  (`none` when the attribute is missing). -/
  game_link : Option String
  /-- result of `go_to_link` on the `#home-away;8` detail view. -/
  detail_load_ok : Bool
  /-- parse results of the texts of all `p[class="height-content"]`
  elements on the detail view, in order. -/
  detail_odds_texts : List (Option ℚ)
  /-- texts of the first and last `p.participant-name` elements, `none`
  when the selections are empty. -/
  team_texts : Option (String × String)
  /-- text of the `div[class*="flex gap-1 font-bold"]` selection, `none`
  when it is empty. -/
  score_text : Option String
  /-- parse results of the texts of the
  `p[class*="height-content !text-black-main"]` elements, in order. -/
  row_odds_texts : List (Option ℚ)
  /-- outcome of the public-percentage poll on the `#home-away;1` view
  (`none` when any part of the wait/parse fails; the failure is caught). -/
  pub_percent_val : Option ℚ
deriving DecidableEq

/-- A rendered season results page: the `go_to_link` result and the
`div[class*="eventRow"]` rows. -/
structure ScrapePage where
  load_ok : Bool
  rows : List EventRow
deriving DecidableEq

/-- Exceptions that escape to the per-row handler of `scraper.py`
line 288. -/
inductive RowError where
  | valueError
  | zeroDivisionError
deriving DecidableEq

/-- Python `lst[-6:-3]` (`scraper.py` line 174). -/
def sliceLast6to3 {α : Type} (l : List α) : List α :=
  (l.take (l.length - 3)).drop (l.length - 6)

/-- `scraper.py` lines 177-179: the home conversion, its
`except (ValueError, ZeroDivisionError)` leaving the field unset. -/
def convHome (t : Option ℚ) (g : Game) : Game :=
  match normalizeText t with
  | .ok v => { g with odds_home := some v }
  | .error _ => g

/-- `scraper.py` lines 184-186, the away analogue. -/
def convAway (t : Option ℚ) (g : Game) : Game :=
  match normalizeText t with
  | .ok v => { g with odds_away := some v }
  | .error _ => g

/-- `scraper.py` lines 192-194, the draw analogue. -/
def convDraw (t : Option ℚ) (g : Game) : Game :=
  match normalizeText t with
  | .ok v => { g with odds_draw := some v }
  | .error _ => g

/-- `scraper.py` lines 176-188: the `if home_odds_elem:` block.  Home at
index 0, away at index 1; an `IndexError` on `home_odds_elem[1]` aborts
the rest of the `try` body — `.error` carries the game state at the point
the exception was raised. -/
def detailOddsFirst (sl : List (Option ℚ)) (g : Game) : Except Game Game :=
  if sl.isEmpty then .ok g
  else
    let g :=
      match sl.head? with
      | some t => convHome t g
      | none => g
    match sl.get? 1 with
    | none => .error g
    | some t => .ok (convAway t g)

/-- `scraper.py` lines 167-196, body of the broad `try` of line 167.
The draw block (`if season.possible_outcomes == 3:`, line 191) is at the
same level as `if home_odds_elem:` and runs even when the slice is empty;
an `IndexError` on `home_odds_elem[2]` aborts as well. -/
def detailOddsBody (po : Nat) (sl : List (Option ℚ)) (g : Game) : Except Game Game :=
  match detailOddsFirst sl g with
  | .error g => .error g
  | .ok g =>
    if po == 3 then
      match sl.get? 2 with
      | none => .error g
      | some t2 => .ok (convDraw t2 g)
    else .ok g

/-- `scraper.py` lines 167-199: average-odds extraction on the detail view.
The broad `except Exception` of line 198 catches the `IndexError` cases of
the body and continues the row with the game as already populated. -/
def extractDetailOdds (po : Nat) (texts : List (Option ℚ)) (g : Game) : Game :=
  match detailOddsBody po (sliceLast6to3 texts) g with
  | .ok g => g
  | .error g => g

/-- `scraper.py` lines 157-199: set `game_url` to the `#home-away;8` view
and extract the average odds when the link is present and the view loads. -/
def detailStep (base_url : String) (row : EventRow) (po : Nat) (g : Game) : Game :=
  match row.game_link with
  | none => g
  | some link =>
    if link == "" then g
    else
      let g := { g with game_url := some (base_url ++ link ++ "#home-away;8") }
      if row.detail_load_ok then extractDetailOdds po row.detail_odds_texts g
      else g

/-- `scraper.py` lines 202-208: team names from the first/last
`p.participant-name` elements, stripped. -/
def extractTeams (tt : Option (String × String)) (g : Game) : Game :=
  match tt with
  | none => g
  | some (h, a) => { g with team_home := some (pyStrip h), team_away := some (pyStrip a) }

/-- `scraper.py` lines 210-216: split the score text on the en-dash; when
exactly two parts result, parse them in order.  A failing `int(...)` on
either part raises to the row-level handler, which discards the game, so
the half-assigned state Python passes through when the second parse fails
is never observable; both assignments are folded into the `.ok` case. -/
def extractScores (st : Option String) (g : Game) : Except RowError Game :=
  match st with
  | none => .ok g
  | some t =>
    match pySplit '–' t with
    | [s1, s2] =>
      match pyInt (pyStrip s1) with
      | none => .error .valueError
      | some sh =>
        match pyInt (pyStrip s2) with
        | none => .error .valueError
        | some sa => .ok { g with score_home := some sh, score_away := some sa }
    | _ => .ok g
  
/-- `scraper.py` lines 227-235: the enumerated loop over the row's initial
odds elements.  Every element is converted (a `ValueError` or
`ZeroDivisionError` here is not caught locally and kills the row); the
value is stored for indices 0, 1 and — when three outcomes are possible —
2 and discarded otherwise. -/
def rowOddsLoop (po : Nat) (i : Nat) : List (Option ℚ) → Game → Except RowError Game
  | [], g => .ok g
  | t :: rest, g =>
    match normalizeText t with
    | .error .valueError => .error .valueError
    | .error .zeroDivisionError => .error .zeroDivisionError
    | .ok v =>
      let g :=
        if i == 0 then { g with final_odds_home := some v }
        else if i == 1 then { g with final_odds_away := some v }
        else if i == 2 && po == 3 then { g with final_odds_draw := some v }
        else g
      rowOddsLoop po (i + 1) rest g

/-- `scraper.py` lines 224-235 (`if odds_elems:` then the loop). -/
def extractRowOdds (po : Nat) (texts : List (Option ℚ)) (g : Game) : Except RowError Game :=
  if texts.isEmpty then .ok g
  else rowOddsLoop po 0 texts g

/-- `scraper.py` lines 237-244: outcome from score comparison; nothing is
assigned when a score is absent. -/
def deriveOutcome (g : Game) : Game :=
  match g.score_home, g.score_away with
  | some sh, some sa =>
    { g with outcome := if sa < sh then .HOME else if sh < sa then .AWAY else .DRAW }
  | _, _ => g

/-- `scraper.py` lines 247-274: switch `game_url` to the `#home-away;1`
view and run the public-percentage poll; every failure inside is caught on
line 273. -/
def pubStep (base_url : String) (row : EventRow) (g : Game) : Game :=
  match row.game_link with
  | none => g
  | some link =>
    if link == "" then g
    else
      let g := { g with game_url := some (base_url ++ link ++ "#home-away;1") }
      match row.pub_percent_val with
      | some p => { g with pub_percent := some p }
      | none => g

/-- One iteration of the row loop of `scraper.py` lines 153-290, up to the
completeness check: build the `Game` for one event row.  An uncaught
exception anywhere inside is the `Except.error` case (the caller then
skips the row, line 288). -/
def processRow (base_url now url : String) (po : Nat) (row : EventRow) :
    Except RowError Game :=
  let g0 : Game := {}
  let g1 := detailStep base_url row po g0
  let g2 := extractTeams row.team_texts g1
  match extractScores row.score_text g2 with
  | .error e => .error e
  | .ok g3 =>
    let g4 := { g3 with retrieval_datetime := some now, retrieval_url := some url,
                        num_possible_outcomes := some po }
    match extractRowOdds po row.row_odds_texts g4 with
    | .error e => .error e
    | .ok g5 => .ok (pubStep base_url row (deriveOutcome g5))

/-- Python truthiness of an optional string (`None` and `''` are falsy). -/
def truthyStr : Option String → Bool
  | none => false
  | some s => s != ""

/-- Python truthiness of an optional integer (`None` and `0` are falsy). -/
def truthyInt : Option Int → Bool
  | none => false
  | some n => n != 0

/-- The completeness check of `scraper.py` line 284:
`if game.team_home and game.team_away and game.odds_home and game.odds_away`. -/
def gameComplete (g : Game) : Bool :=
  truthyStr g.team_home && truthyStr g.team_away &&
  truthyInt g.odds_home && truthyInt g.odds_away

/-- The row loop of `scraper.py` lines 153-290: a failed row is skipped, a
built game is appended only when the completeness check passes. -/
def processRows (base_url now url : String) : List EventRow → Season → Season
  | [], s => s
  | row :: rest, s =>
    match processRow base_url now url s.possible_outcomes row with
    | .error _ => processRows base_url now url rest s
    | .ok g =>
      if gameComplete g then processRows base_url now url rest (s.add_game g)
      else processRows base_url now url rest s

/-- The url loop of `scraper.py` lines 134-292: a page that fails to load
is skipped (`continue`). -/
def processUrls (env : String → ScrapePage) (base_url now : String) :
    List String → Season → Season
  | [], s => s
  | url :: rest, s =>
    let pg := env url
    if !pg.load_ok then processUrls env base_url now rest s
    else processUrls env base_url now rest (processRows base_url now url pg.rows s)

/-- `Scraper.populate_games_into_season` (`scraper.py` lines 127-292).
`env` is the browser environment (page returned for each season url),
`now` the timestamp `time.strftime` returns. -/
def populate_games_into_season (env : String → ScrapePage) (base_url now : String)
    (season : Season) : Season :=
  processUrls env base_url now season.urls season

/-- The outcome-derivation contract of the spec (§3, §4.5 step 6, §8):
`HOME` iff the home score is strictly greater, `AWAY` iff strictly
smaller, `DRAW` iff both present and equal, `UNKNOWN` iff a score is
absent. -/
def outcomeMatches (g : Game) : Prop :=
  (g.outcome = .HOME ↔ ∃ sh sa, g.score_home = some sh ∧ g.score_away = some sa ∧ sa < sh) ∧
  (g.outcome = .AWAY ↔ ∃ sh sa, g.score_home = some sh ∧ g.score_away = some sa ∧ sh < sa) ∧
  (g.outcome = .DRAW ↔ ∃ sh sa, g.score_home = some sh ∧ g.score_away = some sa ∧ sh = sa) ∧
  (g.outcome = .UNKNOWN ↔ (g.score_home = none ∨ g.score_away = none))

/-- The seasons one selector's matches contribute in
`get_seasons_for_league`: one season per link whose `href` contains
`/results/` and whose text is non-empty. -/
def seasonsFromLinks (links : List SeasonLink) : List Season :=
  links.filterMap (fun l =>
    match l.href with
    | none => none
    | some href =>
      let text := l.text.getD ""
      if strIn "/results/" href && text != "" then
        some { name := pyStrip text, possible_outcomes := 2, urls := [href], games := [] }
      else none)

/-!  ## Concrete inputs used by witnesses and counterexamples -/

/-- A league root page on which the first selector pattern matches one
link and the second pattern matches another. -/
def c5Doc : LeagueDoc :=
  { load_ok := true
    selResults := [{ href := some "/results/a", text := some "2020" }]
    selSeasonsDiv := [{ href := some "/results/b", text := some "2021" }]
    selFilterDiv := []
    selTournamentNav := [] }

def c5SeasonA : Season :=
  { name := "2020", possible_outcomes := 2, urls := ["/results/a"], games := [] }

def c5SeasonB : Season :=
  { name := "2021", possible_outcomes := 2, urls := ["/results/b"], games := [] }

/-- An ordinary pagination anchor (page 1). -/
def wAnchorOne : PageAnchor := { spanText := some "1", xPage := some "1", href := some "#/page/1/" }

/-- The last-page anchor: span text carries `»|`, `x-page` is 3. -/
def wAnchorLast : PageAnchor := { spanText := some "»|", xPage := some "3", href := some "#/page/3/" }

/-- A season page with three pages of results, successfully loaded. -/
def c1Page : CrawlPage := { load_ok := true, noDataText := "", paginationLinks := [wAnchorOne, wAnchorLast] }

def c1Season : Season := { name := "S", possible_outcomes := 2, urls := ["https://x/results/"], games := [] }

/-- The same pagination-bearing page, but with the navigation step
reporting failure. -/
def c6Page : CrawlPage := { load_ok := false, noDataText := "", paginationLinks := [wAnchorOne, wAnchorLast] }

def c6Season : Season := { name := "S", possible_outcomes := 2, urls := ["u"], games := [] }

/-- A loaded page with two pagination anchors, neither carrying `»|`. -/
def c7Page : CrawlPage :=
  { load_ok := true, noDataText := ""
    paginationLinks := [wAnchorOne, { spanText := some "2", xPage := some "2", href := some "#/page/2/" }] }

def c7Season : Season := { name := "S", possible_outcomes := 2, urls := ["u"], games := [] }

/-- An event row every extraction step of which succeeds: detail odds 3.00
(slice `[-6:-3]` of the six texts picks the first three), teams A/B, score
3–1, no initial odds elements, no public percentage. -/
def wRow : EventRow :=
  { game_link := some "/american-football/x"
    detail_load_ok := true
    detail_odds_texts := [some 3, some 3, some 3, none, none, none]
    team_texts := some ("A", "B")
    score_text := some "3–1"
    row_odds_texts := []
    pub_percent_val := none }

/-- The game `processRow` builds from `wRow`. -/
def wGame : Game :=
  { team_home := some "A", team_away := some "B"
    score_home := some 3, score_away := some 1
    outcome := .HOME
    odds_home := some 200, odds_away := some 200
    game_url := some "b/american-football/x#home-away;1"
    retrieval_url := some "u1", retrieval_datetime := some "now"
    num_possible_outcomes := some 2 }

/-- A browser environment serving a single page holding `wRow`. -/
def wEnv : String → ScrapePage := fun _ => { load_ok := true, rows := [wRow] }

def wSeason : Season := { name := "S", possible_outcomes := 2, urls := ["u1"], games := [] }

/-- The payload of either result of a body that models an exception flow:
`.error g` is "the exception escaped with the object mutated up to `g`". -/
def coreOf : Except Game Game → Game
  | .ok g => g
  | .error g => g

/-- Two game states that agree on the fields the outcome derivation and
the score invariants read. -/
def sameCore (g' g : Game) : Prop :=
  g'.score_home = g.score_home ∧ g'.score_away = g.score_away ∧ g'.outcome = g.outcome

/-!  ## Theorems -/

theorem pyRound_nonneg (q : ℚ) (hq : 0 ≤ q) : 0 ≤ pyRound q := by
  have hf : (0 : ℤ) ≤ ⌊q⌋ := Int.floor_nonneg.mpr hq
  simp only [pyRound]
  split_ifs <;> omega

theorem pyRound_neg (q : ℚ) (hq : q < -1) : pyRound q < 0 := by
  have hf : ⌊q⌋ < -1 := by
    have := Int.floor_lt.mpr (show q < ((-1 : ℤ) : ℚ) by push_cast; exact hq)
    omega
  simp only [pyRound]
  split_ifs <;> omega

/-- C2: for every decimal odds value `d ≥ 2.00` the assembler's odds
conversion returns `round((d − 1) × 100)`, which is non-negative, and for
every `1.0 < d < 2.00` it returns `round(−100 / (d − 1))`, which is
negative. -/
theorem claim_C2 (d : ℚ) :
    (2 ≤ d →
      normalizeOdds d = .ok (pyRound ((d - 1) * 100)) ∧ 0 ≤ pyRound ((d - 1) * 100)) ∧
    (1 < d → d < 2 →
      normalizeOdds d = .ok (pyRound (-100 / (d - 1))) ∧ pyRound (-100 / (d - 1)) < 0) := by
  constructor
  · intro h2
    refine ⟨by simp [normalizeOdds, h2], pyRound_nonneg _ (by nlinarith)⟩
  · intro h1 h2
    have hne : d ≠ 1 := by linarith
    have hpos : 0 < d - 1 := by linarith
    have hlt : -100 / (d - 1) < -1 := by
      rw [div_lt_iff₀ hpos]
      nlinarith
    exact ⟨by simp [normalizeOdds, not_le.mpr h2, hne], pyRound_neg _ hlt⟩

theorem claim_C2_witness :
    (normalizeOdds (5 / 2) = .ok (pyRound (((5 : ℚ) / 2 - 1) * 100)) ∧
      0 ≤ pyRound (((5 : ℚ) / 2 - 1) * 100)) ∧
    (normalizeOdds (3 / 2) = .ok (pyRound (-100 / ((3 : ℚ) / 2 - 1))) ∧
      pyRound (-100 / ((3 : ℚ) / 2 - 1)) < 0) :=
  ⟨(claim_C2 (5 / 2)).1 (by norm_num), (claim_C2 (3 / 2)).2 (by norm_num) (by norm_num)⟩

/-- C3 (counterexample): the conversion of the decimal value exactly 2.00
does not return 0 — it takes the `d ≥ 2.00` branch and returns
`round((2 − 1) × 100) = 100`. -/
theorem claim_C3_counterexample : normalizeOdds 2 ≠ .ok 0 := by
  norm_num [normalizeOdds, pyRound]

/-- C3 (amended): at the even-money boundary the conversion of the decimal
odds value exactly 2.00 returns 100 (the `+100` moneyline). -/
theorem claim_C3 : normalizeOdds 2 = .ok 100 := by
  norm_num [normalizeOdds, pyRound]

/-- C4 (counterexample): a decimal value `d ≤ 1.0` need not fail: at
`d = 0.5` the conversion runs the `round(−100 / (d − 1))` branch and
returns the integer 200 instead of an error. -/
theorem claim_C4_counterexample :
    ((1 : ℚ) / 2 ≤ 1) ∧ normalizeOdds (1 / 2) = .ok 200 := by
  refine ⟨by norm_num, ?_⟩
  norm_num [normalizeOdds, pyRound]

/-- C4 (amended): the conversion fails only at exactly `d = 1.0` (the
`ZeroDivisionError` of `−100 / (d − 1)`) and on a text `float(...)` cannot
parse (`ValueError`); for every `d < 1.0` it returns
`round(−100 / (d − 1))` without error. -/
theorem claim_C4 (d : ℚ) :
    (d = 1 → normalizeOdds d = .error .zeroDivisionError) ∧
    (d < 1 → normalizeOdds d = .ok (pyRound (-100 / (d - 1)))) ∧
    normalizeText none = .error .valueError := by
  refine ⟨fun h1 => by simp [normalizeOdds, h1], fun hlt => ?_, rfl⟩
  have : ¬ (2 : ℚ) ≤ d := by linarith
  have hne : d ≠ 1 := by linarith
  simp [normalizeOdds, this, hne]

theorem claim_C4_witness :
    normalizeOdds 1 = .error .zeroDivisionError ∧
    normalizeOdds 0 = .ok (pyRound (-100 / ((0 : ℚ) - 1))) ∧
    normalizeText none = .error .valueError :=
  ⟨(claim_C4 1).1 rfl, ((claim_C4 0).2).1 (by norm_num), ((claim_C4 0).2).2⟩

/-- C1: when the single-entry season's page reports, via the anchor whose
span carries the `»|` glyphs, a last page number `N ≥ 2` (page loaded with
more than one pagination anchor and no "No data available" marker), the
resolver rewrites `season.urls` to exactly `N` urls: the original first
url unchanged in front, the synthesized urls for page indices `2..N−1` in
ascending order (the page-number segment of `last_page_url` substituted),
and `last_page_url` itself at the end. -/
theorem claim_C1 (pg : CrawlPage) (season : Season) (u xp hr : String)
    (a : PageAnchor) (N : Int)
    (hurls : season.urls = [u])
    (hnodata : pg.noDataText ≠ "No data available")
    (hmany : 1 < pg.paginationLinks.length)
    (hfind : findLastAnchor pg.paginationLinks = some a)
    (hxp : a.xPage = some xp)
    (hN : pyInt xp = some N)
    (hhr : a.href = some hr)
    (h2 : 2 ≤ N) :
    ∃ s', fill_in_season_pagination_links pg season = .ok s' ∧
      s'.urls.length = N.toNat ∧
      s'.urls = u :: (((List.range' 2 (N - 2).toNat).map
        (fun i => pyReplace (u ++ hr) ("page/" ++ toString N) ("page/" ++ toString i))) ++ [u ++ hr]) ∧
      s'.urls.getLast? = some (u ++ hr) ∧
      s'.games = season.games := by
  have hbeq : (pg.noDataText == "No data available") = false := by
    simpa using hnodata
  have hlen : ¬ (pg.paginationLinks.length ≤ 1) := by omega
  refine ⟨{ season with urls := [u] ++ ((List.range' 2 (N - 2).toNat).map
      (fun i => pyReplace (u ++ hr) ("page/" ++ toString N) ("page/" ++ toString i))) ++ [u ++ hr] },
    ?_, ?_, ?_, ?_, ?_⟩
  · unfold fill_in_season_pagination_links
    rw [hurls]
    simp only [List.head?_cons, hbeq, hfind, hxp, hN, hhr, Bool.false_eq_true, if_false, hlen]
  · simp only [List.length_append, List.length_map, List.length_range', List.length_cons,
      List.length_nil]
    omega
  · simp
  · rw [show ([u] ++ ((List.range' 2 (N - 2).toNat).map
        (fun i => pyReplace (u ++ hr) ("page/" ++ toString N) ("page/" ++ toString i))) ++ [u ++ hr])
      = ([u] ++ ((List.range' 2 (N - 2).toNat).map
        (fun i => pyReplace (u ++ hr) ("page/" ++ toString N) ("page/" ++ toString i)))) ++ [u ++ hr]
      from by simp]
    exact List.getLast?_concat _
  · rfl

theorem claim_C1_witness :
    ∃ s', fill_in_season_pagination_links c1Page c1Season = .ok s' ∧
      s'.urls.length = (3 : Int).toNat ∧
      s'.urls = "https://x/results/" :: (((List.range' 2 ((3 : Int) - 2).toNat).map
        (fun i => pyReplace ("https://x/results/" ++ "#/page/3/")
          ("page/" ++ toString (3 : Int)) ("page/" ++ toString i))) ++
        ["https://x/results/" ++ "#/page/3/"]) ∧
      s'.urls.getLast? = some ("https://x/results/" ++ "#/page/3/") ∧
      s'.games = c1Season.games :=
  claim_C1 c1Page c1Season "https://x/results/" "3" "#/page/3/" wAnchorLast 3
    rfl (by decide) (by decide) (by decide) rfl (by decide) rfl (by decide)

/-- C6 (counterexample): the resolver ignores the navigation result; on a
season page whose load fails but whose HTML still carries pagination
anchors it mutates `season.urls` (from one url to three) instead of
aborting. -/
theorem claim_C6_counterexample :
    go_to_link c6Page = false ∧
    fill_in_season_pagination_links c6Page c6Season =
      .ok { name := "S", possible_outcomes := 2,
            urls := ["u", "u#/page/2/", "u#/page/3/"], games := [] } := by
  constructor
  · rfl
  · decide

/-- C6 (amended): the resolver never inspects the result of the
navigation step — its outcome is literally independent of whether
`go_to_link` succeeded; only the page content decides what happens. -/
theorem claim_C6 (b1 b2 : Bool) (nd : String) (links : List PageAnchor)
    (s : Season) :
    fill_in_season_pagination_links { load_ok := b1, noDataText := nd, paginationLinks := links } s =
    fill_in_season_pagination_links { load_ok := b2, noDataText := nd, paginationLinks := links } s :=
  rfl

/-- C7: on a loaded season page that does not show the "No data
available" marker, with more than one pagination anchor but no anchor
whose inner span text contains `»|`, the resolver raises the
unrecoverable `RuntimeError` instead of returning or mutating the
season. -/
theorem claim_C7 (pg : CrawlPage) (season : Season)
    (hne : season.urls ≠ [])
    (hnodata : pg.noDataText ≠ "No data available")
    (hmany : 1 < pg.paginationLinks.length)
    (hglyph : ∀ a ∈ pg.paginationLinks, ∀ s, a.spanText = some s → strIn "»|" s = false) :
    fill_in_season_pagination_links pg season = .error .runtimeError := by
  have hbeq : (pg.noDataText == "No data available") = false := by simpa using hnodata
  have hlen : ¬ (pg.paginationLinks.length ≤ 1) := by omega
  have hfind : findLastAnchor pg.paginationLinks = none := by
    apply List.find?_eq_none.mpr
    intro a ha
    rw [List.mem_reverse] at ha
    unfold isLastPageAnchor
    cases hsp : a.spanText with
    | none => simp
    | some s => simp [hglyph a ha s hsp]
  obtain ⟨u, rest, hu⟩ : ∃ u rest, season.urls = u :: rest := by
    cases h : season.urls with
    | nil => exact absurd h hne
    | cons u rest => exact ⟨u, rest, rfl⟩
  unfold fill_in_season_pagination_links
  rw [hu]
  simp only [List.head?_cons, hbeq, Bool.false_eq_true, if_false, hlen, hfind]

theorem claim_C7_witness :
    fill_in_season_pagination_links c7Page c7Season = .error .runtimeError :=
  claim_C7 c7Page c7Season (by decide) (by decide) (by decide) (by decide)

/-- C5 (counterexample): with one match from the first selector pattern
and one from the second, the engine returns both seasons — a match of a
later pattern appears in the result even though the first pattern already
yielded matches (there is no `break`). -/
theorem claim_C5_counterexample :
    processSeasonLinks c5Doc.selResults [] = .ok [c5SeasonA] ∧
    get_seasons_for_league c5Doc = .ok [c5SeasonA, c5SeasonB] ∧
    c5SeasonB ∉ [c5SeasonA] :=
  ⟨by decide, by decide, by decide⟩

theorem processSeasonLinks_ok (links : List SeasonLink) :
    ∀ acc : List Season, (∀ l ∈ links, l.href ≠ none) →
      processSeasonLinks links acc = .ok (acc ++ seasonsFromLinks links) := by
  induction links with
  | nil => intro acc _; simp [processSeasonLinks, seasonsFromLinks]
  | cons l ls ih =>
    intro acc h
    have hrest : ∀ x ∈ ls, x.href ≠ none := fun x hx => h x (List.mem_cons_of_mem _ hx)
    cases hh : l.href with
    | none => exact absurd hh (h l (List.mem_cons_self l ls))
    | some href =>
      by_cases hc : (strIn "/results/" href && (l.text.getD "") != "") = true
      · simp only [processSeasonLinks, hh, hc, if_true, ih _ hrest]
        simp only [Bool.and_eq_true, bne_iff_ne, ne_eq] at hc
        simp [seasonsFromLinks, List.filterMap_cons, hh, hc.1, hc.2]
      · simp only [processSeasonLinks, hh, hc, if_false, ih _ hrest]
        have hc' : ¬(strIn "/results/" href = true ∧ ¬l.text.getD "" = "") := by
          simpa using hc
        simp [seasonsFromLinks, List.filterMap_cons, hh, hc']

theorem processSelectors_ok (ls : List (List SeasonLink)) :
    ∀ acc : List Season, (∀ links ∈ ls, ∀ l ∈ links, l.href ≠ none) →
      processSelectors ls acc = .ok (acc ++ (ls.map seasonsFromLinks).flatten) := by
  induction ls with
  | nil => intro acc _; simp [processSelectors]
  | cons links rest ih =>
    intro acc h
    have hrest : ∀ x ∈ rest, ∀ l ∈ x, l.href ≠ none :=
      fun x hx l hl => h x (List.mem_cons_of_mem _ hx) l hl
    by_cases he : links.isEmpty
    · have hnil : seasonsFromLinks links = [] := by
        cases links with
        | nil => rfl
        | cons a b => simp [List.isEmpty] at he
      simp only [processSelectors, he, if_true, ih _ hrest]
      simp [hnil]
    · simp only [processSelectors, he, if_false,
        processSeasonLinks_ok links acc (h links (List.mem_cons_self links rest)),
        ih _ hrest]
      simp [List.append_assoc]

/-- C5 (amended): the link-discovery loop visits every selector pattern in
priority order and merges their matches: the returned sequence is the
concatenation, over all four patterns, of one season per matched link with
a `/results/` href and non-empty text. -/
theorem claim_C5 (d : LeagueDoc) (hload : d.load_ok = true)
    (hhref : ∀ links ∈ selectorMatches d, ∀ l ∈ links, l.href ≠ none) :
    get_seasons_for_league d =
      .ok (seasonsFromLinks d.selResults ++ seasonsFromLinks d.selSeasonsDiv ++
           seasonsFromLinks d.selFilterDiv ++ seasonsFromLinks d.selTournamentNav) := by
  unfold get_seasons_for_league
  rw [hload]
  simp only [Bool.not_true, Bool.false_eq_true, if_false]
  rw [processSelectors_ok _ _ hhref]
  simp [selectorMatches, List.append_assoc]

theorem claim_C5_witness :
    get_seasons_for_league c5Doc =
      .ok (seasonsFromLinks c5Doc.selResults ++ seasonsFromLinks c5Doc.selSeasonsDiv ++
           seasonsFromLinks c5Doc.selFilterDiv ++ seasonsFromLinks c5Doc.selTournamentNav) :=
  claim_C5 c5Doc (by decide) (by decide)

theorem sameCore_refl (g : Game) : sameCore g g := ⟨rfl, rfl, rfl⟩

theorem sameCore_trans {a b c : Game} (h1 : sameCore a b) (h2 : sameCore b c) :
    sameCore a c :=
  ⟨h1.1.trans h2.1, h1.2.1.trans h2.2.1, h1.2.2.trans h2.2.2⟩

theorem convHome_core (t : Option ℚ) (g : Game) : sameCore (convHome t g) g := by
  unfold convHome
  cases normalizeText t <;> simp [sameCore]

theorem convAway_core (t : Option ℚ) (g : Game) : sameCore (convAway t g) g := by
  unfold convAway
  cases normalizeText t <;> simp [sameCore]

theorem convDraw_core (t : Option ℚ) (g : Game) : sameCore (convDraw t g) g := by
  unfold convDraw
  cases normalizeText t <;> simp [sameCore]

theorem detailOddsFirst_core (sl : List (Option ℚ)) (g : Game) :
    sameCore (coreOf (detailOddsFirst sl g)) g := by
  unfold detailOddsFirst
  by_cases he : sl.isEmpty
  · simp [he, coreOf, sameCore_refl]
  · simp only [he, Bool.false_eq_true, if_false]
    have hstep : sameCore (match sl.head? with
        | some t => convHome t g
        | none => g) g := by
      cases sl.head? with
      | none => exact sameCore_refl g
      | some t => exact convHome_core t g
    cases h1 : sl.get? 1 with
    | none => simpa [coreOf] using hstep
    | some t => simpa [coreOf] using sameCore_trans (convAway_core t _) hstep

theorem detailOddsBody_core (po : Nat) (sl : List (Option ℚ)) (g : Game) :
    sameCore (coreOf (detailOddsBody po sl g)) g := by
  unfold detailOddsBody
  cases hf : detailOddsFirst sl g with
  | error g1 =>
    have := detailOddsFirst_core sl g
    rw [hf] at this
    simpa [coreOf] using this
  | ok g1 =>
    have hfirst : sameCore g1 g := by
      have := detailOddsFirst_core sl g
      rw [hf] at this
      simpa [coreOf] using this
    by_cases hpo : (po == 3) = true
    · simp only [hpo, if_true]
      cases h2 : sl.get? 2 with
      | none => simpa [coreOf] using hfirst
      | some t2 => simpa [coreOf] using sameCore_trans (convDraw_core t2 _) hfirst
    · simp only [hpo, Bool.false_eq_true, if_false]
      simpa [coreOf] using hfirst

theorem extractDetailOdds_core (po : Nat) (texts : List (Option ℚ)) (g : Game) :
    sameCore (extractDetailOdds po texts g) g := by
  have h0 := detailOddsBody_core po (sliceLast6to3 texts) g
  unfold extractDetailOdds
  cases h : detailOddsBody po (sliceLast6to3 texts) g with
  | ok g1 => rw [h] at h0; simpa [coreOf] using h0
  | error g1 => rw [h] at h0; simpa [coreOf] using h0

theorem detailStep_core (b : String) (row : EventRow) (po : Nat) (g : Game) :
    sameCore (detailStep b row po g) g := by
  unfold detailStep
  cases row.game_link with
  | none => exact sameCore_refl g
  | some link =>
    by_cases hl : (link == "") = true
    · simp [hl, sameCore_refl]
    · simp only [hl, Bool.false_eq_true, if_false]
      by_cases hd : row.detail_load_ok
      · simp only [hd, if_true]
        exact sameCore_trans (extractDetailOdds_core po row.detail_odds_texts _)
          (by simp [sameCore])
      · simp only [hd, Bool.false_eq_true, if_false]
        simp [sameCore]

theorem extractTeams_core (tt : Option (String × String)) (g : Game) :
    sameCore (extractTeams tt g) g := by
  unfold extractTeams
  cases tt with
  | none => exact sameCore_refl g
  | some p => cases p with
    | mk h a => simp [sameCore]

theorem pubStep_core (b : String) (row : EventRow) (g : Game) :
    sameCore (pubStep b row g) g := by
  unfold pubStep
  cases row.game_link with
  | none => exact sameCore_refl g
  | some link =>
    by_cases hl : (link == "") = true
    · simp [hl, sameCore_refl]
    · simp only [hl, Bool.false_eq_true, if_false]
      cases row.pub_percent_val with
      | none => simp [sameCore]
      | some p => simp [sameCore]

theorem extractScores_ok (st : Option String) (g g' : Game)
    (h : extractScores st g = .ok g') :
    g'.outcome = g.outcome ∧
    ((g'.score_home = g.score_home ∧ g'.score_away = g.score_away) ∨
      (g'.score_home.isSome ∧ g'.score_away.isSome)) := by
  cases st with
  | none =>
    simp only [extractScores] at h
    cases h
    exact ⟨rfl, Or.inl ⟨rfl, rfl⟩⟩
  | some t =>
    simp only [extractScores] at h
    split at h
    · split at h
      · cases h
      · split at h
        · cases h
        · cases h
          exact ⟨rfl, Or.inr ⟨rfl, rfl⟩⟩
    · cases h
      exact ⟨rfl, Or.inl ⟨rfl, rfl⟩⟩

theorem rowOddsLoop_ok (po : Nat) :
    ∀ (ts : List (Option ℚ)) (i : Nat) (g g' : Game),
      rowOddsLoop po i ts g = .ok g' → sameCore g' g := by
  intro ts
  induction ts with
  | nil =>
    intro i g g' h
    cases h
    exact sameCore_refl _
  | cons t rest ih =>
    intro i g g' h
    unfold rowOddsLoop at h
    revert h
    cases normalizeText t with
    | error e =>
      cases e <;> intro h <;> cases h
    | ok v =>
      intro h
      refine sameCore_trans (ih _ _ _ h) ?_
      split_ifs <;> simp [sameCore]

theorem extractRowOdds_ok (po : Nat) (ts : List (Option ℚ)) (g g' : Game)
    (h : extractRowOdds po ts g = .ok g') : sameCore g' g := by
  unfold extractRowOdds at h
  split_ifs at h
  · cases h
    exact sameCore_refl _
  · exact rowOddsLoop_ok po ts 0 g g' h

theorem deriveOutcome_scores (g : Game) :
    (deriveOutcome g).score_home = g.score_home ∧
    (deriveOutcome g).score_away = g.score_away := by
  unfold deriveOutcome
  cases hsh : g.score_home <;> cases hsa : g.score_away <;> simp [hsh, hsa]

theorem deriveOutcome_spec (g : Game) (h : g.outcome = .UNKNOWN) :
    outcomeMatches (deriveOutcome g) := by
  unfold deriveOutcome outcomeMatches
  cases hsh : g.score_home with
  | none =>
    simp only [hsh]
    refine ⟨?_, ?_, ?_, ?_⟩ <;> simp [h, hsh]
  | some sh =>
    cases hsa : g.score_away with
    | none =>
      simp only [hsh, hsa]
      refine ⟨?_, ?_, ?_, ?_⟩ <;> simp [h, hsh, hsa]
    | some sa =>
      simp only [hsh, hsa]
      by_cases h1 : sa < sh
      · refine ⟨?_, ?_, ?_, ?_⟩ <;> simp [h1, hsh, hsa] <;> omega
      · by_cases h2 : sh < sa
        · refine ⟨?_, ?_, ?_, ?_⟩ <;> simp [h1, h2, hsh, hsa] <;> omega
        · refine ⟨?_, ?_, ?_, ?_⟩ <;> simp [h1, h2, hsh, hsa] <;> omega

theorem outcomeMatches_of_sameCore {a b : Game} (h : sameCore a b)
    (hb : outcomeMatches b) : outcomeMatches a := by
  unfold outcomeMatches at hb ⊢
  rw [h.1, h.2.1, h.2.2]
  exact hb

theorem processRow_ok (b n u : String) (po : Nat) (row : EventRow) (g : Game)
    (h : processRow b n u po row = .ok g) :
    (g.score_home.isSome ↔ g.score_away.isSome) ∧ outcomeMatches g := by
  unfold processRow at h
  dsimp only at h
  have hcore2 : sameCore (extractTeams row.team_texts (detailStep b row po {})) ({} : Game) :=
    sameCore_trans (extractTeams_core _ _) (detailStep_core _ _ _ _)
  split at h
  · simp at h
  · rename_i g3 hs
    split at h
    · simp at h
    · rename_i g5 ho
      have hg : g = pubStep b row (deriveOutcome g5) := by
        cases h
        rfl
      have hs3 := extractScores_ok _ _ _ hs
      have h5 := extractRowOdds_ok _ _ _ _ ho
      have h5sh : g5.score_home = g3.score_home := h5.1
      have h5sa : g5.score_away = g3.score_away := h5.2.1
      have h5o : g5.outcome = g3.outcome := h5.2.2
      have h3o : g3.outcome = Outcome.UNKNOWN := by
        rw [hs3.1, hcore2.2.2]
      have hfinal : sameCore (pubStep b row (deriveOutcome g5)) (deriveOutcome g5) :=
        pubStep_core b row (deriveOutcome g5)
      subst hg
      constructor
      · rw [hfinal.1, hfinal.2.1, (deriveOutcome_scores g5).1, (deriveOutcome_scores g5).2,
          h5sh, h5sa]
        rcases hs3.2 with ⟨hh, ha⟩ | ⟨hh, ha⟩
        · simp [hh, ha, hcore2.1, hcore2.2.1]
        · simp [hh, ha]
      · exact outcomeMatches_of_sameCore hfinal
          (deriveOutcome_spec g5 (h5o.trans h3o))

theorem Season.mem_add_game {s : Season} {g g' : Game} :
    g ∈ (s.add_game g').games ↔ g ∈ s.games ∨ g = g' := by
  simp [Season.add_game, List.mem_append]

theorem processRows_mem (b n u : String) (rows : List EventRow) :
    ∀ (s : Season) (g : Game),
      g ∈ (processRows b n u rows s).games →
      g ∈ s.games ∨ (gameComplete g = true ∧ ∃ po row, processRow b n u po row = .ok g) := by
  induction rows with
  | nil => intro s g h; exact Or.inl h
  | cons row rest ih =>
    intro s g h
    unfold processRows at h
    revert h
    cases hr : processRow b n u s.possible_outcomes row with
    | error e => intro h; exact ih s g h
    | ok g0 =>
      dsimp only
      by_cases hc : gameComplete g0 = true
      · rw [if_pos hc]
        intro h
        rcases ih _ g h with hmem | hdone
        · rcases Season.mem_add_game.mp hmem with h1 | h2
          · exact Or.inl h1
          · subst h2
            exact Or.inr ⟨hc, s.possible_outcomes, row, hr⟩
        · exact Or.inr hdone
      · rw [if_neg hc]
        intro h
        exact ih s g h

theorem processUrls_mem (env : String → ScrapePage) (b n : String) (urls : List String) :
    ∀ (s : Season) (g : Game),
      g ∈ (processUrls env b n urls s).games →
      g ∈ s.games ∨ (gameComplete g = true ∧ ∃ u po row, processRow b n u po row = .ok g) := by
  induction urls with
  | nil => intro s g h; exact Or.inl h
  | cons u rest ih =>
    intro s g h
    unfold processUrls at h
    dsimp only at h
    revert h
    by_cases hl : (!(env u).load_ok) = true
    · rw [if_pos hl]
      intro h
      exact ih s g h
    · rw [if_neg hl]
      intro h
      rcases ih _ g h with hmem | hdone
      · rcases processRows_mem b n u (env u).rows s g hmem with h1 | ⟨h2, po, row, hr⟩
        · exact Or.inl h1
        · exact Or.inr ⟨h2, u, po, row, hr⟩
      · exact Or.inr hdone

theorem truthyStr_isSome {o : Option String} (h : truthyStr o = true) : o.isSome := by
  cases o <;> simp_all [truthyStr]

theorem truthyInt_isSome {o : Option Int} (h : truthyInt o = true) : o.isSome := by
  cases o <;> simp_all [truthyInt]

theorem gameComplete_isSome {g : Game} (h : gameComplete g = true) :
    g.team_home.isSome ∧ g.team_away.isSome ∧ g.odds_home.isSome ∧ g.odds_away.isSome := by
  unfold gameComplete at h
  simp only [Bool.and_eq_true] at h
  exact ⟨truthyStr_isSome h.1.1.1, truthyStr_isSome h.1.1.2,
    truthyInt_isSome h.1.2, truthyInt_isSome h.2⟩

/-- C8: a game appended to a fresh season by the assembler always has
team_home, team_away, odds_home and odds_away present. -/
theorem claim_C8 (env : String → ScrapePage) (base_url now : String) (season : Season)
    (hempty : season.games = []) (g : Game)
    (hg : g ∈ (populate_games_into_season env base_url now season).games) :
    g.team_home.isSome ∧ g.team_away.isSome ∧ g.odds_home.isSome ∧ g.odds_away.isSome := by
  rcases processUrls_mem env base_url now season.urls season g hg with hmem | ⟨hc, _⟩
  · rw [hempty] at hmem
    cases hmem
  · exact gameComplete_isSome hc

/-- C9: every game the assembler appends satisfies the outcome contract. -/
theorem claim_C9 (env : String → ScrapePage) (base_url now : String) (season : Season)
    (hempty : season.games = []) (g : Game)
    (hg : g ∈ (populate_games_into_season env base_url now season).games) :
    outcomeMatches g := by
  rcases processUrls_mem env base_url now season.urls season g hg with hmem | ⟨_, u, po, row, hr⟩
  · rw [hempty] at hmem
    cases hmem
  · exact (processRow_ok base_url now u po row g hr).2

/-- C10: in every appended game the two scores are present together or
absent together. -/
theorem claim_C10 (env : String → ScrapePage) (base_url now : String) (season : Season)
    (hempty : season.games = []) (g : Game)
    (hg : g ∈ (populate_games_into_season env base_url now season).games) :
    g.score_home.isSome ↔ g.score_away.isSome := by
  rcases processUrls_mem env base_url now season.urls season g hg with hmem | ⟨_, u, po, row, hr⟩
  · rw [hempty] at hmem
    cases hmem
  · exact (processRow_ok base_url now u po row g hr).1

theorem wProcessRow : processRow "b" "now" "u1" 2 wRow = .ok wGame := by
  simp [processRow, detailStep, extractDetailOdds, detailOddsBody, detailOddsFirst,
        convHome, convAway, convDraw, sliceLast6to3, extractTeams, extractScores,
        extractRowOdds, rowOddsLoop, deriveOutcome, pubStep, wRow, wGame, normalizeText]
  norm_num [normalizeOdds, pyRound]
  rfl

theorem wPopulate :
    populate_games_into_season wEnv "b" "now" wSeason = { wSeason with games := [wGame] } := by
  unfold populate_games_into_season
  rw [show wSeason.urls = ["u1"] from rfl]
  unfold processUrls
  dsimp only [wEnv]
  rw [if_neg (by decide)]
  unfold processRows
  rw [show wSeason.possible_outcomes = 2 from rfl, wProcessRow]
  dsimp only
  rw [if_pos (by decide : gameComplete wGame = true)]
  unfold processRows processUrls
  rfl

theorem claim_C8_witness :
    wGame.team_home.isSome ∧ wGame.team_away.isSome ∧
    wGame.odds_home.isSome ∧ wGame.odds_away.isSome :=
  claim_C8 wEnv "b" "now" wSeason rfl wGame
    (by rw [wPopulate]; exact List.mem_singleton.mpr rfl)

theorem claim_C9_witness : outcomeMatches wGame :=
  claim_C9 wEnv "b" "now" wSeason rfl wGame
    (by rw [wPopulate]; exact List.mem_singleton.mpr rfl)

theorem claim_C10_witness : wGame.score_home.isSome ↔ wGame.score_away.isSome :=
  claim_C10 wEnv "b" "now" wSeason rfl wGame
    (by rw [wPopulate]; exact List.mem_singleton.mpr rfl)
